import Mathlib

/-!
Formal model of the decision wheel of the decisionSpinnerApp repository
(src/app/App.js): the spin resolution computed by spinWheel, the wheel
geometry computed inside DecisionWheel (via polarToCartesian and
describeArc), and the option list editing operations addItem and
removeItem.  JavaScript number arithmetic is modelled as exact rational
arithmetic, and the JavaScript remainder operator, which is only applied
to nonnegative operands in this program, is modelled by jsMod.
-/

/-- The JavaScript remainder operator restricted to the operands the
program uses: for 0 <= a and 0 < b the JavaScript expression a % b
equals a - b * floor (a / b). -/
def jsMod (a b : ℚ) : ℚ := a - b * ⌊a / b⌋

/-- The configured number of full spins, the constant numFullSpins of
spinWheel in src/app/App.js. -/
def numFullSpins : ℕ := 5

/-- The final rotation computed by spinWheel in src/app/App.js for
option count n and chosen index randomIndex:
segmentAngle = 360 / n, targetCenterAngle = randomIndex * segmentAngle
+ segmentAngle / 2, and the result is numFullSpins * 360 +
(360 - (targetCenterAngle + 90) % 360). -/
def spinFinalRotation (n randomIndex : ℕ) : ℚ :=
  let segmentAngle : ℚ := 360 / n
  let targetCenterAngle : ℚ := randomIndex * segmentAngle + segmentAngle / 2
  (numFullSpins : ℚ) * 360 + (360 - jsMod (targetCenterAngle + 90) 360)

lemma jsMod_nonneg (a b : ℚ) (hb : 0 < b) : 0 ≤ jsMod a b := by
  have hfl : ((⌊a / b⌋ : ℚ)) ≤ a / b := Int.floor_le (a / b)
  have hmul : b * ((⌊a / b⌋ : ℚ)) ≤ b * (a / b) := mul_le_mul_of_nonneg_left hfl hb.le
  have hba : b * (a / b) = a := by field_simp
  unfold jsMod
  linarith

lemma jsMod_lt (a b : ℚ) (hb : 0 < b) : jsMod a b < b := by
  have hfl : a / b < ((⌊a / b⌋ : ℚ)) + 1 := Int.lt_floor_add_one (a / b)
  have hmul : b * (a / b) < b * (((⌊a / b⌋ : ℚ)) + 1) := mul_lt_mul_of_pos_left hfl hb
  have hba : b * (a / b) = a := by field_simp
  have hexp : b * (((⌊a / b⌋ : ℚ)) + 1) = b * ((⌊a / b⌋ : ℚ)) + b := by ring
  unfold jsMod
  linarith [hexp ▸ hmul]

lemma jsMod_add_mul_int (a b : ℚ) (n : ℤ) (hb : b ≠ 0) :
    jsMod (a + b * n) b = jsMod a b := by
  unfold jsMod
  have h1 : (a + b * n) / b = a / b + n := by
    field_simp
    ring
  rw [h1, Int.floor_add_int]
  push_cast
  ring

/-- Claim C1: for every option count N at least 1 and every winningIndex
k below N, the final rotation computed by spinWheel, taken mod 360,
equals (360 - ((k * 360 / N + 180 / N + 90) mod 360)) mod 360. -/
theorem spinFinalRotation_mod_matches_formula (N k : ℕ) (hN : 1 ≤ N) (hk : k < N) :
    jsMod (spinFinalRotation N k) 360
      = jsMod (360 - jsMod ((k : ℚ) * 360 / N + 180 / N + 90) 360) 360 := by
  have hN0 : ((N : ℚ)) ≠ 0 := Nat.cast_ne_zero.mpr (by omega)
  have hT : (k : ℚ) * (360 / N) + (360 / N) / 2 + 90
      = (k : ℚ) * 360 / N + 180 / N + 90 := by
    field_simp
    ring
  have hval : spinFinalRotation N k
      = (360 - jsMod ((k : ℚ) * 360 / N + 180 / N + 90) 360) + 360 * ((5 : ℤ) : ℚ) := by
    show (numFullSpins : ℚ) * 360 + (360 - jsMod ((k : ℚ) * (360 / N) + (360 / N) / 2 + 90) 360) = _
    rw [hT]
    norm_num [numFullSpins]
    ring
  rw [hval, jsMod_add_mul_int _ _ _ (by norm_num)]

theorem spinFinalRotation_mod_matches_formula_witness :
    jsMod (spinFinalRotation 4 2) 360
      = jsMod (360 - jsMod (((2 : ℕ) : ℚ) * 360 / ((4 : ℕ) : ℚ) + 180 / ((4 : ℕ) : ℚ) + 90) 360) 360 :=
  spinFinalRotation_mod_matches_formula 4 2 (by norm_num) (by norm_num)

/-- Claim C2, counterexample: at N = 2 and winningIndex 1 the final
rotation is exactly 2160 = (numFullSpins + 1) * 360, so it is not
strictly between numFullSpins * 360 and (numFullSpins + 1) * 360. -/
theorem spinFinalRotation_not_strictly_below_2160 :
    ¬ ((numFullSpins : ℚ) * 360 < spinFinalRotation 2 1
        ∧ spinFinalRotation 2 1 < ((numFullSpins : ℚ) + 1) * 360) := by
  norm_num [spinFinalRotation, jsMod, numFullSpins]

/-- Claim C2, amended: for every option count N at least 1 and every
winningIndex k below N, the final rotation is strictly greater than
numFullSpins * 360 and at most (numFullSpins + 1) * 360; the upper bound
is attained (for example at N = 2, k = 1), so it is not strict. -/
theorem spinFinalRotation_bounds (N k : ℕ) (hN : 1 ≤ N) (hk : k < N) :
    (numFullSpins : ℚ) * 360 < spinFinalRotation N k
      ∧ spinFinalRotation N k ≤ ((numFullSpins : ℚ) + 1) * 360 := by
  have h1 := jsMod_nonneg ((k : ℚ) * (360 / N) + (360 / N) / 2 + 90) 360 (by norm_num)
  have h2 := jsMod_lt ((k : ℚ) * (360 / N) + (360 / N) / 2 + 90) 360 (by norm_num)
  have hval : spinFinalRotation N k
      = (numFullSpins : ℚ) * 360
        + (360 - jsMod ((k : ℚ) * (360 / N) + (360 / N) / 2 + 90) 360) := rfl
  rw [hval]
  norm_num [numFullSpins]
  constructor <;> linarith

theorem spinFinalRotation_bounds_witness :
    (numFullSpins : ℚ) * 360 < spinFinalRotation 5 0
      ∧ spinFinalRotation 5 0 ≤ ((numFullSpins : ℚ) + 1) * 360 :=
  spinFinalRotation_bounds 5 0 (by norm_num) (by norm_num)

/-- Claim C6: the concrete scenarios of the spec: N = 5 with winning
index 0 gives 2034 degrees, N = 4 with winning index 2 gives 1845
degrees, and N = 1 with winning index 0 gives 1890 degrees. -/
theorem spinFinalRotation_concrete_scenarios :
    spinFinalRotation 5 0 = 2034
      ∧ spinFinalRotation 4 2 = 1845
      ∧ spinFinalRotation 1 0 = 1890 := by
  norm_num [spinFinalRotation, jsMod, numFullSpins]

/-- The angular data of one sector computed inside DecisionWheel in
src/app/App.js: startAngle, endAngle, and the label placement values
textRadius, textAngle and textRotation, all in degrees. -/
structure Sector where
  startAngle : ℚ
  endAngle : ℚ
  textRadius : ℚ
  textAngle : ℚ
  textRotation : ℚ
deriving DecidableEq, Inhabited

/-- The segmentAngle of DecisionWheel: 360 divided by the option count
when the count is positive, else 0 (the guard on source line 111). -/
def segmentAngleOf (n : ℕ) : ℚ := if 0 < n then 360 / n else 0

/-- The sector values computed for a single option index inside the
options.map of DecisionWheel (source lines 157 to 166). -/
def computeSector (radius : ℚ) (n index : ℕ) : Sector :=
  { startAngle := index * segmentAngleOf n
    endAngle := (index + 1) * segmentAngleOf n
    textRadius := radius * 0.6
    textAngle := index * segmentAngleOf n + segmentAngleOf n / 2
    textRotation := index * segmentAngleOf n + segmentAngleOf n / 2 + 90 }

/-- The full sector list produced by DecisionWheel for n options. -/
def computeSectors (radius : ℚ) (n : ℕ) : List Sector :=
  (List.range n).map (computeSector radius n)

/-- The sector of index i in computeSectors, with a default for an out
of range index. -/
def sectorAt (radius : ℚ) (n i : ℕ) : Sector :=
  (computeSectors radius n).getD i default

lemma sectorAt_eq (radius : ℚ) (n i : ℕ) (h : i < n) :
    sectorAt radius n i = computeSector radius n i := by
  simp [sectorAt, computeSectors, List.getD_eq_getElem?_getD, List.getElem?_map,
    List.getElem?_range h]

lemma segmentAngleOf_pos (n : ℕ) (h : 1 ≤ n) : segmentAngleOf n = 360 / n := by
  simp [segmentAngleOf, Nat.lt_of_lt_of_le Nat.zero_lt_one h]

/-- The polarToCartesian helper of src/app/App.js, lines 17 to 23. -/
noncomputable def polarToCartesian (centerX centerY radius angleInDegrees : ℝ) : ℝ × ℝ :=
  (centerX + radius * Real.cos ((angleInDegrees - 90) * Real.pi / 180),
   centerY + radius * Real.sin ((angleInDegrees - 90) * Real.pi / 180))

/-- The structured content of the SVG path string built by describeArc
in src/app/App.js: the arc start point, the arc end point, and the
large arc flag of the arc command. -/
structure ArcPath where
  arcStart : ℝ × ℝ
  arcEnd : ℝ × ℝ
  largeArcFlag : String

/-- The describeArc helper of src/app/App.js, lines 25 to 39, with the
path string represented structurally. -/
noncomputable def describeArc (x y radius startAngle endAngle : ℚ) : ArcPath :=
  { arcStart := polarToCartesian x y radius endAngle
    arcEnd := polarToCartesian x y radius startAngle
    largeArcFlag := if endAngle - startAngle ≤ 180 then "0" else "1" }

/-- The pathData of a sector, source line 160. -/
noncomputable def sectorPath (centerX centerY radius : ℚ) (s : Sector) : ArcPath :=
  describeArc centerX centerY radius s.startAngle s.endAngle

/-- The textPos of a sector, source line 165. -/
noncomputable def sectorTextPos (centerX centerY : ℚ) (s : Sector) : ℝ × ℝ :=
  polarToCartesian centerX centerY s.textRadius s.textAngle

/-- Claim C4: for every option count N at least 1 and positive radius,
DecisionWheel produces exactly N sectors, sector i spans from i * 360 / N
to (i + 1) * 360 / N, so each sector spans 360 / N degrees, the start
angles are strictly increasing, and the sectors cover the circle from 0
to 360 with no gaps or overlaps. -/
theorem computeSectors_partition (radius : ℚ) (N : ℕ) (hN : 1 ≤ N) (hr : 0 < radius) :
    (computeSectors radius N).length = N
    ∧ (∀ i, i < N →
        (sectorAt radius N i).startAngle = (i : ℚ) * 360 / N
        ∧ (sectorAt radius N i).endAngle = ((i : ℚ) + 1) * 360 / N
        ∧ (sectorAt radius N i).endAngle - (sectorAt radius N i).startAngle = 360 / N)
    ∧ (∀ i j, i < j → j < N →
        (sectorAt radius N i).startAngle < (sectorAt radius N j).startAngle)
    ∧ (sectorAt radius N 0).startAngle = 0
    ∧ (sectorAt radius N (N - 1)).endAngle = 360
    ∧ (∀ i, i + 1 < N →
        (sectorAt radius N i).endAngle = (sectorAt radius N (i + 1)).startAngle) := by
  have hN0 : ((N : ℚ)) ≠ 0 := Nat.cast_ne_zero.mpr (by omega)
  have hseg := segmentAngleOf_pos N hN
  have hsegpos : 0 < segmentAngleOf N := by
    rw [hseg]
    positivity
  refine ⟨by simp [computeSectors], ?_, ?_, ?_, ?_, ?_⟩
  · intro i hi
    rw [sectorAt_eq radius N i hi]
    refine ⟨?_, ?_, ?_⟩
    · simp only [computeSector, hseg]
      rw [mul_div_assoc]
    · simp only [computeSector, hseg]
      rw [mul_div_assoc]
    · simp only [computeSector, hseg]
      ring
  · intro i j hij hj
    rw [sectorAt_eq radius N i (by omega), sectorAt_eq radius N j hj]
    simp only [computeSector]
    have hcast : (i : ℚ) < (j : ℚ) := by exact_mod_cast hij
    exact mul_lt_mul_of_pos_right hcast hsegpos
  · rw [sectorAt_eq radius N 0 (by omega)]
    simp [computeSector]
  · rw [sectorAt_eq radius N (N - 1) (by omega)]
    simp only [computeSector, hseg]
    have hcast : ((N - 1 : ℕ) : ℚ) + 1 = (N : ℚ) := by
      rw [Nat.cast_sub hN]
      push_cast
      ring
    rw [hcast, mul_div_cancel₀ _ hN0]
  · intro i hi
    rw [sectorAt_eq radius N i (by omega), sectorAt_eq radius N (i + 1) hi]
    simp only [computeSector]
    push_cast
    ring

theorem computeSectors_partition_witness :
    (computeSectors 1 3).length = 3
    ∧ (∀ i, i < 3 →
        (sectorAt 1 3 i).startAngle = (i : ℚ) * 360 / (3 : ℕ)
        ∧ (sectorAt 1 3 i).endAngle = ((i : ℚ) + 1) * 360 / (3 : ℕ)
        ∧ (sectorAt 1 3 i).endAngle - (sectorAt 1 3 i).startAngle = 360 / (3 : ℕ))
    ∧ (∀ i j, i < j → j < 3 →
        (sectorAt 1 3 i).startAngle < (sectorAt 1 3 j).startAngle)
    ∧ (sectorAt 1 3 0).startAngle = 0
    ∧ (sectorAt 1 3 (3 - 1)).endAngle = 360
    ∧ (∀ i, i + 1 < 3 →
        (sectorAt 1 3 i).endAngle = (sectorAt 1 3 (i + 1)).startAngle) :=
  computeSectors_partition 1 3 (by norm_num) (by norm_num)

/-- Claim C7: the large arc flag of the path of a sector is the string 0
when the sector spans at most 180 degrees and the string 1 otherwise; in
particular for a single option the lone sector has flag 1. -/
theorem sector_largeArcFlag (cx cy radius : ℚ) (N i : ℕ) (hi : i < N) :
    ((sectorPath cx cy radius (sectorAt radius N i)).largeArcFlag
        = if (sectorAt radius N i).endAngle - (sectorAt radius N i).startAngle ≤ 180
          then "0" else "1")
    ∧ (N = 1 → (sectorPath cx cy radius (sectorAt radius N i)).largeArcFlag = "1") := by
  constructor
  · rfl
  · rintro rfl
    have h0 : i = 0 := by omega
    subst h0
    rw [sectorAt_eq radius 1 0 (by omega)]
    norm_num [sectorPath, describeArc, computeSector, segmentAngleOf]

theorem sector_largeArcFlag_witness :
    ((sectorPath 0 0 1 (sectorAt 1 1 0)).largeArcFlag
        = if (sectorAt 1 1 0).endAngle - (sectorAt 1 1 0).startAngle ≤ 180
          then "0" else "1")
    ∧ (1 = 1 → (sectorPath 0 0 1 (sectorAt 1 1 0)).largeArcFlag = "1") :=
  sector_largeArcFlag 0 0 1 1 0 (by norm_num)

/-- Claim C8: with zero options the wheel geometry is an empty sector
list, and the segment angle guard yields 0 instead of dividing 360 by
the zero option count. -/
theorem computeSectors_empty (radius : ℚ) :
    computeSectors radius 0 = [] ∧ segmentAngleOf 0 = 0 := by
  exact ⟨rfl, rfl⟩

/-- Claim C9: the label of sector i sits at radius 0.6 times the wheel
radius, at the angular midpoint startAngle plus half a segment, its
Cartesian position follows the polar conversion with the minus 90 degree
offset, and its rotation is textAngle plus 90. -/
theorem sector_label_placement (cx cy radius : ℚ) (N i : ℕ) (hN : 1 ≤ N) (hi : i < N) :
    (sectorAt radius N i).textRadius = 0.6 * radius
    ∧ (sectorAt radius N i).textAngle
        = (sectorAt radius N i).startAngle + (360 / N) / 2
    ∧ (sectorTextPos cx cy (sectorAt radius N i)).1
        = (cx : ℝ) + 0.6 * (radius : ℝ)
            * Real.cos ((((sectorAt radius N i).textAngle : ℝ) - 90) * Real.pi / 180)
    ∧ (sectorTextPos cx cy (sectorAt radius N i)).2
        = (cy : ℝ) + 0.6 * (radius : ℝ)
            * Real.sin ((((sectorAt radius N i).textAngle : ℝ) - 90) * Real.pi / 180)
    ∧ (sectorAt radius N i).textRotation = (sectorAt radius N i).textAngle + 90 := by
  have hseg := segmentAngleOf_pos N hN
  rw [sectorAt_eq radius N i hi]
  refine ⟨?_, ?_, ?_, ?_, ?_⟩
  · simp only [computeSector]
    ring
  · simp only [computeSector, hseg]
  · simp only [computeSector, sectorTextPos, polarToCartesian]
    push_cast
    ring
  · simp only [computeSector, sectorTextPos, polarToCartesian]
    push_cast
    ring
  · rfl

theorem sector_label_placement_witness :
    (sectorAt 1 1 0).textRadius = 0.6 * 1
    ∧ (sectorAt 1 1 0).textAngle
        = (sectorAt 1 1 0).startAngle + (360 / ((1 : ℕ) : ℚ)) / 2
    ∧ (sectorTextPos 0 0 (sectorAt 1 1 0)).1
        = ((0 : ℚ) : ℝ) + 0.6 * ((1 : ℚ) : ℝ)
            * Real.cos ((((sectorAt 1 1 0).textAngle : ℝ) - 90) * Real.pi / 180)
    ∧ (sectorTextPos 0 0 (sectorAt 1 1 0)).2
        = ((0 : ℚ) : ℝ) + 0.6 * ((1 : ℚ) : ℝ)
            * Real.sin ((((sectorAt 1 1 0).textAngle : ℝ) - 90) * Real.pi / 180)
    ∧ (sectorAt 1 1 0).textRotation = (sectorAt 1 1 0).textAngle + 90 :=
  sector_label_placement 0 0 1 1 0 (by norm_num) (by norm_num)

/-- An option of the spinner: an id string and a display name, as kept
in the options state of src/app/App.js. -/
structure JsOption where
  id : String
  name : String
deriving DecidableEq

/-- The user visible alert dialogs the component raises through
showCustomAlert, identified by which call site raises them. -/
inductive ModalMsg
  | noOptions : ModalMsg
  | yourDecision (selectedItem : String) : ModalMsg
  | duplicateOption (trimmedItem : String) : ModalMsg
  | inputRequired : ModalMsg
deriving DecidableEq

/-- Whitespace test used when trimming submitted text. -/
def isJsWs (c : Char) : Bool :=
  c == ' ' || c == '\t' || c == '\n' || c == '\r'

/-- ASCII lowercasing of one character, the effect of the JavaScript
toLowerCase call on the names this program compares. -/
def jsCharToLower (c : Char) : Char :=
  match c with
  | 'A' => 'a'
  | 'B' => 'b'
  | 'C' => 'c'
  | 'D' => 'd'
  | 'E' => 'e'
  | 'F' => 'f'
  | 'G' => 'g'
  | 'H' => 'h'
  | 'I' => 'i'
  | 'J' => 'j'
  | 'K' => 'k'
  | 'L' => 'l'
  | 'M' => 'm'
  | 'N' => 'n'
  | 'O' => 'o'
  | 'P' => 'p'
  | 'Q' => 'q'
  | 'R' => 'r'
  | 'S' => 's'
  | 'T' => 't'
  | 'U' => 'u'
  | 'V' => 'v'
  | 'W' => 'w'
  | 'X' => 'x'
  | 'Y' => 'y'
  | 'Z' => 'z'
  | other => other

/-- Trimming of a character list on both sides. -/
def trimChars (l : List Char) : List Char :=
  ((l.dropWhile isJsWs).reverse.dropWhile isJsWs).reverse

/-- The JavaScript trim call used by addItem on source line 357. -/
def jsTrim (s : String) : String := String.mk (trimChars s.data)

/-- The JavaScript toLowerCase call used by addItem on line 359. -/
def jsToLower (s : String) : String := String.mk (s.data.map jsCharToLower)

lemma isJsWs_jsCharToLower (c : Char) : isJsWs (jsCharToLower c) = isJsWs c := by
  unfold jsCharToLower
  split <;> rfl

lemma trimChars_map_jsCharToLower (l : List Char) :
    trimChars (l.map jsCharToLower) = (trimChars l).map jsCharToLower := by
  have hp : (isJsWs ∘ jsCharToLower) = isJsWs := funext isJsWs_jsCharToLower
  have hdw : ∀ m : List Char, (m.map jsCharToLower).dropWhile isJsWs
      = (m.dropWhile isJsWs).map jsCharToLower := by
    intro m
    rw [List.dropWhile_map, hp]
  unfold trimChars
  rw [hdw, ← List.map_reverse, hdw, ← List.map_reverse]

lemma jsToLower_jsTrim (s : String) : jsToLower (jsTrim s) = jsTrim (jsToLower s) := by
  unfold jsToLower jsTrim
  exact congrArg String.mk (trimChars_map_jsCharToLower s.data).symm

lemma trimChars_eq_rdropWhile (l : List Char) :
    trimChars l = List.rdropWhile isJsWs (l.dropWhile isJsWs) := rfl

lemma dropWhile_trimChars (l : List Char) :
    (trimChars l).dropWhile isJsWs = trimChars l := by
  rw [List.dropWhile_eq_self_iff]
  intro hl
  have hne : trimChars l ≠ [] := by
    intro h
    rw [h] at hl
    simp at hl
  have hpre : trimChars l <+: l.dropWhile isJsWs := by
    rw [trimChars_eq_rdropWhile]
    exact List.rdropWhile_prefix isJsWs _
  have hne2 : l.dropWhile isJsWs ≠ [] := hpre.ne_nil hne
  rw [List.get_eq_getElem, ← List.head_eq_getElem_zero hne, hpre.head hne]
  simp [List.head_dropWhile_not isJsWs l hne2]

lemma trimChars_idem (l : List Char) : trimChars (trimChars l) = trimChars l := by
  rw [trimChars_eq_rdropWhile (trimChars l), dropWhile_trimChars, trimChars_eq_rdropWhile l]
  exact List.rdropWhile_idempotent isJsWs _

lemma jsTrim_idem (s : String) : jsTrim (jsTrim s) = jsTrim s := by
  unfold jsTrim
  exact congrArg String.mk (trimChars_idem s.data)

/-- The result of the addItem handler of src/app/App.js, lines 356 to
369: the new option list, the alert raised if any, and the content of
the text input afterwards. -/
structure AddResult where
  options : List JsOption
  modal : Option ModalMsg
  newItemAfter : String
deriving DecidableEq

/-- The addItem handler, source lines 356 to 369, acting on the current
option list and the submitted text; newId stands for the identifier the
program derives from the clock. -/
def addItem (options : List JsOption) (newItem : String) (newId : String) : AddResult :=
  let trimmedItem := jsTrim newItem
  if trimmedItem = "" then
    { options := options, modal := some ModalMsg.inputRequired, newItemAfter := newItem }
  else if options.any (fun item => jsToLower item.name == jsToLower trimmedItem) then
    { options := options, modal := some (ModalMsg.duplicateOption trimmedItem),
      newItemAfter := newItem }
  else
    { options := options ++ [{ id := newId, name := trimmedItem }], modal := none,
      newItemAfter := "" }

/-- The removeItem handler of src/app/App.js, lines 371 to 373. -/
def removeItem (options : List JsOption) (idToRemove : String) : List JsOption :=
  options.filter (fun item => item.id != idToRemove)

/-- The observable effect of one call of the spinWheel handler of
src/app/App.js, lines 375 to 400: the alert raised immediately if any,
whether the rotation value was reset and an animation started, the
animation target, and the alert shown when the animation completes. -/
structure SpinEffect where
  immediateModal : Option ModalMsg
  rotationReset : Bool
  animationTarget : Option ℚ
  completionModal : Option ModalMsg
deriving DecidableEq

/-- The spinWheel handler for a given option list and chosen
randomIndex, which the program draws uniformly below the option
count. -/
def spinWheel (options : List JsOption) (randomIndex : ℕ) : SpinEffect :=
  if options.length = 0 then
    { immediateModal := some ModalMsg.noOptions, rotationReset := false,
      animationTarget := none, completionModal := none }
  else
    { immediateModal := none, rotationReset := true,
      animationTarget := some (spinFinalRotation options.length randomIndex),
      completionModal := (options.get? randomIndex).map
        (fun item => ModalMsg.yourDecision item.name) }

/-- The initial option list of the component, source lines 295 to 301. -/
def initialOptions : List JsOption :=
  [{ id := "1", name := "Go for a walk" },
   { id := "2", name := "Read a book" },
   { id := "3", name := "Watch a movie" },
   { id := "4", name := "Play a game" },
   { id := "5", name := "Work on a hobby" }]

/-- Claim C3: with zero options spinWheel raises the no options alert,
does not touch the rotation value and starts no animation; with at
least one option it raises no immediate alert and starts the
animation. -/
theorem spinWheel_empty_guard (options : List JsOption) (randomIndex : ℕ) :
    (options.length = 0 →
        spinWheel options randomIndex
          = { immediateModal := some ModalMsg.noOptions, rotationReset := false,
              animationTarget := none, completionModal := none })
    ∧ (0 < options.length →
        (spinWheel options randomIndex).immediateModal = none
        ∧ (spinWheel options randomIndex).animationTarget
            = some (spinFinalRotation options.length randomIndex)) := by
  constructor
  · intro h
    simp [spinWheel, h]
  · intro h
    have h0 : ¬ options.length = 0 := by omega
    simp [spinWheel, h0]

theorem spinWheel_empty_guard_witness :
    spinWheel [] 0
      = { immediateModal := some ModalMsg.noOptions, rotationReset := false,
          animationTarget := none, completionModal := none }
    ∧ (spinWheel initialOptions 0).immediateModal = none :=
  ⟨(spinWheel_empty_guard [] 0).1 rfl,
   ((spinWheel_empty_guard initialOptions 0).2 (by simp [initialOptions])).1⟩

/-- Claim C5: a submitted entry that is blank or whitespace only, or
that is a case insensitive duplicate of an existing option name, is
rejected by addItem with an alert and the option list is unchanged.
The hypothesis hinv states that stored names carry no surrounding
whitespace, which holds for every list the program can reach. -/
theorem addItem_rejects_blank_and_duplicate (options : List JsOption)
    (newItem newId : String)
    (hinv : ∀ o ∈ options, jsTrim o.name = o.name)
    (h : jsTrim newItem = "" ∨ ∃ o ∈ options, jsToLower o.name = jsToLower newItem) :
    (addItem options newItem newId).options = options
      ∧ (addItem options newItem newId).modal ≠ none := by
  by_cases hblank : jsTrim newItem = ""
  · simp [addItem, hblank]
  · rcases h with h | ⟨o, ho, hdup⟩
    · exact absurd h hblank
    · have hmatch : jsToLower o.name = jsToLower (jsTrim newItem) := by
        calc jsToLower o.name = jsToLower (jsTrim o.name) := by rw [hinv o ho]
        _ = jsTrim (jsToLower o.name) := jsToLower_jsTrim o.name
        _ = jsTrim (jsToLower newItem) := by rw [hdup]
        _ = jsToLower (jsTrim newItem) := (jsToLower_jsTrim newItem).symm
      have hany : options.any
          (fun item => jsToLower item.name == jsToLower (jsTrim newItem)) = true := by
        rw [List.any_eq_true]
        exact ⟨o, ho, by simp [hmatch]⟩
      simp [addItem, hblank, hany]

theorem addItem_rejects_blank_and_duplicate_witness :
    (addItem initialOptions "Read a Book" "6").options = initialOptions
      ∧ (addItem initialOptions "Read a Book" "6").modal ≠ none :=
  addItem_rejects_blank_and_duplicate initialOptions "Read a Book" "6"
    (by decide)
    (Or.inr ⟨{ id := "2", name := "Read a book" }, by decide, by decide⟩)

lemma initialOptions_trimmed : ∀ o ∈ initialOptions, jsTrim o.name = o.name := by
  decide

lemma addItem_preserves_trimmed (options : List JsOption) (newItem newId : String)
    (hinv : ∀ o ∈ options, jsTrim o.name = o.name) :
    ∀ o ∈ (addItem options newItem newId).options, jsTrim o.name = o.name := by
  intro o ho
  simp only [addItem] at ho
  split at ho
  · exact hinv o ho
  · split at ho
    · exact hinv o ho
    · rcases List.mem_append.mp ho with h | h
      · exact hinv o h
      · have heq : o = { id := newId, name := jsTrim newItem } := by simpa using h
        rw [heq]
        exact jsTrim_idem newItem

lemma removeItem_preserves_trimmed (options : List JsOption) (idToRemove : String)
    (hinv : ∀ o ∈ options, jsTrim o.name = o.name) :
    ∀ o ∈ removeItem options idToRemove, jsTrim o.name = o.name := by
  intro o ho
  exact hinv o (List.mem_filter.mp ho).1

/-- Claim C10: removeItem removes exactly the options whose id equals
the given id, keeps every other option unchanged in order, and leaves
the list unchanged when no option carries the id. -/
theorem removeItem_spec (options : List JsOption) (idToRemove : String) :
    (removeItem options idToRemove).Sublist options
    ∧ (∀ o ∈ removeItem options idToRemove, o.id ≠ idToRemove)
    ∧ (∀ o, List.count o (removeItem options idToRemove)
        = if o.id = idToRemove then 0 else List.count o options)
    ∧ ((∀ o ∈ options, o.id ≠ idToRemove) → removeItem options idToRemove = options) := by
  refine ⟨List.filter_sublist options, ?_, ?_, ?_⟩
  · intro o ho
    have hmem := List.mem_filter.mp ho
    simpa using hmem.2
  · intro o
    by_cases hid : o.id = idToRemove
    · rw [if_pos hid]
      refine List.count_eq_zero.mpr ?_
      intro hmem
      have h2 := (List.mem_filter.mp hmem).2
      simp [hid] at h2
    · rw [if_neg hid]
      exact List.count_filter (by simpa using hid)
  · intro hall
    refine List.filter_eq_self.mpr ?_
    intro o ho
    simpa using hall o ho

theorem removeItem_spec_witness :
    List.count ({ id := "2", name := "Read a book" } : JsOption)
        (removeItem initialOptions "1")
      = List.count ({ id := "2", name := "Read a book" } : JsOption) initialOptions
    ∧ removeItem initialOptions "9" = initialOptions := by
  constructor
  · have h := (removeItem_spec initialOptions "1").2.2.1 { id := "2", name := "Read a book" }
    rwa [if_neg (by decide)] at h
  · exact (removeItem_spec initialOptions "9").2.2.2 (by decide)
